import Mathlib

/-!
Verification of the structured-value cache wrapper (`src/src/Memcached.js`,
class `MemcachedWrapper`).

The backend (memcached driver, promisified `get`/`set`/`del`) is modelled as an
association list from keys to the stored values.  The wrapper stores only
strings in the backend — every structured write stores `JSON.stringify(x)` and
every structured read applies `JSON.parse` to what `get` returned.  Since
`JSON.parse (JSON.stringify x) = x` for every JSON value, the model keeps the
*parsed* JSON value in the store and treats the stringify/parse pair as the
identity.  JavaScript's `undefined` (distinct from JSON `null`) is modelled as
`Option.none` at the API boundary: `Json` itself has no `undefined`
constructor, exactly because `JSON.stringify`/`JSON.parse` never produce one
inside a stored document.  Truthiness of a stored value read back as a string
agrees with truthiness of the parsed value on every value this layer writes
(objects and arrays stringify to nonempty, hence truthy, strings).

JavaScript numbers are modelled as integers (every number appearing in the
code paths under verification — TTLs, indices, lengths — is integral), with an
explicit `NaN` in `JsNum` because `Number(undefined) = NaN` drives several
branches.  Errors thrown by the wrapper or by the JavaScript runtime
(`TypeError` on property access through `undefined`/`null`, strict-mode
assignment to a primitive) are modelled with `Except String`.

All operations are sequential state transformers on the store: the claims
under verification assume no concurrent writers, and each JS method awaits its
backend calls in program order.
-/

namespace CacheEnvelop

/-- A JS value flowing through the wrapper: the JSON constructors are what
`JSON.parse` produces / `JSON.stringify` consumes (JS numbers are modelled as
integers, see module comment).  `proto f` is the non-JSON runtime value
obtained by reading an *inherited* prototype member named `f` (a built-in
function such as `Object.prototype.toString`, or the prototype object itself
for the `__proto__` getter): such values arise only from property reads, are
never `undefined`, are truthy, and are never written into the store by the
code paths under verification. -/
inductive Json where
  | null : Json
  | bool : Bool → Json
  | num : Int → Json
  | str : String → Json
  | arr : List Json → Json
  | obj : List (String × Json) → Json
  | proto : String → Json

/-- JavaScript truthiness of a (defined) value: `false`, `0`, `""` and `null`
are falsy, every object and array is truthy. -/
def jsTruthy : Json → Bool
  | .null => false
  | .bool b => b
  | .num n => n != 0
  | .str s => s != ""
  | .arr _ => true
  | .obj _ => true
  | .proto _ => true

/-- Truthiness of a possibly-`undefined` value (`none` = `undefined`). -/
def optTruthy : Option Json → Bool
  | none => false
  | some v => jsTruthy v

/-- Truthiness of the optional `field` argument of the hash operations
(a string or `undefined`; the empty string is falsy). -/
def fieldTruthy : Option String → Bool
  | none => false
  | some s => s != ""

/-- Result of JavaScript's `Number(·)` coercion: an integer or `NaN`. -/
inductive JsNum where
  | nan : JsNum
  | int : Int → JsNum

/-- Truthiness of a number: `0` and `NaN` are falsy. -/
def JsNum.truthy : JsNum → Bool
  | .nan => false
  | .int n => n != 0

/-- The JavaScript comparison `x >= 0` on a number (`NaN >= 0` is `false`). -/
def JsNum.nonneg : JsNum → Bool
  | .nan => false
  | .int n => decide (0 ≤ n)

/-- `Number(x)` applied to an optional numeric argument:
`Number(undefined) = NaN`, `Number(n) = n`.  The TTL/index/start/end
parameters of the wrapper are documented as numbers, so they are modelled as
`Option Int` (`none` = argument omitted/`undefined`). -/
def toNumber : Option Int → JsNum
  | none => .nan
  | some n => .int n

/-- The backend store: keys mapped to the (parsed form of the) stored string
values.  Absent key = the driver's `get` yields `undefined`. -/
abbrev Store := List (String × Json)

/-- Backend `set`: overwrite the entry for `k`, or append a fresh one.
The TTL itself is enforced by the backend and is not part of the
observable state here. -/
def rawSet : Store → String → Json → Store
  | [], k, v => [(k, v)]
  | (k', v') :: rest, k, v =>
      if k' = k then (k, v) :: rest else (k', v') :: rawSet rest k v

/-- Backend `del`: remove the entry for `k` (idempotent). -/
def rawDel (st : Store) (k : String) : Store :=
  st.filter (fun e => e.1 != k)

/-- `#maxLengthKey = 250` (line 13). -/
def maxLengthKey : Nat := 250

/-- `key.replace(/\s/g, '')` (line 61): remove every whitespace character. -/
def stripWs (s : String) : String :=
  String.mk (s.toList.filter (fun c => !c.isWhitespace))

/-- `#checkKeyValidity(key)` (lines 60–65): strip whitespace; an empty result
throws `'The key cannot be empty'`; a result longer than 250 characters throws
`'The key must be at least one character'` (the message is the source's own).
The `typeof` check on line 63 is unreachable for string keys and has no
counterpart here. -/
def checkKeyValidity (key : String) : Except String Unit :=
  let trimmedKey := stripWs key
  if trimmedKey = "" then .error "The key cannot be empty"
  else if trimmedKey.length > maxLengthKey then
    .error "The key must be at least one character"
  else .ok ()

/-- Assignment `m[f] = v` on a JS object, as seen after a
stringify/parse round trip: update the first entry with key `f` in place, or
append a new entry (JS objects preserve insertion order, and
`JSON.stringify` emits fields in that order). -/
def objAssign : List (String × Json) → String → Json → List (String × Json)
  | [], f, v => [(f, v)]
  | (g, w) :: rest, f, v =>
      if g = f then (g, v) :: rest else (g, w) :: objAssign rest f v

/-- `delete m[f]` on a JS object (also what assigning `undefined` to `f`
looks like after a stringify/parse round trip, since `JSON.stringify` drops
`undefined`-valued fields): remove the entry for `f`. -/
def objErase (m : List (String × Json)) (f : String) : List (String × Json) :=
  m.filter (fun e => e.1 != f)

/-- Element assignment `xs[i] = v` on a JS array, as seen after a
stringify/parse round trip: indices beyond the current length create holes,
which `JSON.stringify` emits as `null`; an `undefined` element likewise
stringifies as `null`. -/
def arrAssign (xs : List Json) (i : Nat) (v : Option Json) : List Json :=
  let w := match v with | some w => w | none => Json.null
  if i < xs.length then xs.set i w
  else xs ++ List.replicate (i - xs.length) Json.null ++ [w]

/-- The own members of `Object.prototype`, which every plain object produced
by `JSON.parse` inherits: a property read for one of these names on an object
without an own property of that name yields a defined (non-`undefined`,
truthy) inherited value, not `undefined`. -/
def objectProtoMembers : List String :=
  ["constructor", "hasOwnProperty", "isPrototypeOf", "propertyIsEnumerable",
   "toLocaleString", "toString", "valueOf", "__proto__",
   "__defineGetter__", "__defineSetter__", "__lookupGetter__",
   "__lookupSetter__"]

/-- `f` names an inherited `Object.prototype` member. -/
def isObjectProtoMember (f : String) : Bool :=
  objectProtoMembers.contains f

/-- The own members of `Array.prototype` (standard methods), together with
the `Object.prototype` members arrays inherit further up the chain. -/
def arrayProtoMembers : List String :=
  ["at", "concat", "copyWithin", "entries", "every", "fill", "filter",
   "find", "findIndex", "findLast", "findLastIndex", "flat", "flatMap",
   "forEach", "includes", "indexOf", "join", "keys", "lastIndexOf", "map",
   "pop", "push", "reduce", "reduceRight", "reverse", "shift", "slice",
   "some", "sort", "splice", "unshift", "values"] ++ objectProtoMembers

/-- The own members of `String.prototype` (standard methods), together with
the `Object.prototype` members strings inherit further up the chain. -/
def stringProtoMembers : List String :=
  ["at", "charAt", "charCodeAt", "codePointAt", "concat", "endsWith",
   "includes", "indexOf", "lastIndexOf", "localeCompare", "normalize",
   "padEnd", "padStart", "repeat", "replace", "replaceAll", "search",
   "slice", "split", "startsWith", "substring", "toLowerCase",
   "toUpperCase", "trim", "trimEnd", "trimStart"] ++ objectProtoMembers

/-- The own members of `Number.prototype`, together with the inherited
`Object.prototype` members (numbers are boxed on property access). -/
def numberProtoMembers : List String :=
  ["toExponential", "toFixed", "toPrecision"] ++ objectProtoMembers

/-- Property read `h[f]` with a string key `f`, on a possibly-`undefined`
receiver: throws a `TypeError` when the receiver is `undefined` or `null`;
on an object yields the own field value, or — when there is no own property —
the inherited `Object.prototype` member (`Json.proto f`) for names such as
`"toString"` or `"__proto__"`, and `undefined` for every other name; on an
array resolves numeric keys, `length`, and the inherited
`Array.prototype`/`Object.prototype` members; on a string resolves numeric
keys to one-character strings, `length`, and the inherited
`String.prototype`/`Object.prototype` members; on the remaining primitives
(boxed on access) resolves their inherited prototype members and yields
`undefined` otherwise. -/
def jsIndexStr (h : Option Json) (f : String) :
    Except String (Option Json) :=
  match h with
  | none => .error "TypeError: Cannot read properties of undefined"
  | some .null => .error "TypeError: Cannot read properties of null"
  | some (.obj m) =>
      .ok (match m.lookup f with
           | some v => some v
           | none =>
             if isObjectProtoMember f then some (.proto f) else none)
  | some (.arr xs) =>
      .ok (if f = "length" then some (.num xs.length)
           else match f.toNat? with
                | some i => xs.get? i
                | none =>
                  if arrayProtoMembers.contains f then some (.proto f)
                  else none)
  | some (.str s) =>
      .ok (if f = "length" then some (.num s.length)
           else match f.toNat? with
                | some i => (s.toList.get? i).map (fun c => .str (String.mk [c]))
                | none =>
                  if stringProtoMembers.contains f then some (.proto f)
                  else none)
  | some (.num _) =>
      .ok (if numberProtoMembers.contains f then some (.proto f) else none)
  | some (.bool _) =>
      .ok (if isObjectProtoMember f then some (.proto f) else none)
  | some _ => .ok none

/-- Assignment `h[f] = v` on a defined receiver, inside a class body (strict
mode), as observed after the stringify/parse round trip of the subsequent
write-back:
* object: assigning to `"__proto__"` *without* an own property of that name
  (JSON.parse can create one, plain assignment cannot) invokes the inherited
  accessor setter — no own property is created and the stringified document
  is unchanged; every other name (or an own `"__proto__"`) updates/inserts
  the own field (or drops it when `v` is `undefined`);
* array: numeric keys assign elements (`arrAssign`); non-numeric keys create
  properties that `JSON.stringify` ignores (`"__proto__"` hits the setter),
  so the stored document is unchanged (assignment to `length`, which would
  truncate, is not modelled);
* `null` or a primitive: strict mode throws a `TypeError`. -/
def jsAssign (h : Json) (f : String) (v : Option Json) : Except String Json :=
  match h with
  | .obj m =>
      if f == "__proto__" && (m.lookup f).isNone then .ok (.obj m)
      else
        .ok (.obj (match v with
                   | some w => objAssign m f w
                   | none => objErase m f))
  | .arr xs =>
      match f.toNat? with
      | some i => .ok (.arr (arrAssign xs i v))
      | none => .ok (.arr xs)
  | .null => .error "TypeError: Cannot set properties of null"
  | _ => .error "TypeError: Cannot create property on primitive value"

/-- `delete h[f]` in strict mode, as observed after the stringify/parse round
trip of the subsequent write-back: on an object remove the field; on an array
a deleted element leaves a hole that stringifies as `null`; deleting an own
non-configurable property of a string (its indices and `length` — the only
string properties the caller can have observed as defined) throws. -/
def jsDelete (h : Json) (f : String) : Except String Json :=
  match h with
  | .obj m => .ok (.obj (objErase m f))
  | .arr xs =>
      match f.toNat? with
      | some i => .ok (.arr (if i < xs.length then xs.set i Json.null else xs))
      | none => .ok (.arr xs)
  | .str _ => .error "TypeError: Cannot delete property of a String"
  | _ => .ok h

/-- `JsNum.toInt` reads the integer out of a number; every use below sits
under a guard (`truthy`/`nonneg`) that excludes `NaN`, and JavaScript's
`slice`/`splice` coerce `NaN` to `0` anyway. -/
def JsNum.toInt : JsNum → Int
  | .nan => 0
  | .int n => n

/-- Index normalisation shared by `Array.prototype.slice`/`splice`:
a negative index counts from the end (clamped at `0`), a nonnegative index is
clamped at the length. -/
def normSliceIdx (len : Nat) (i : Int) : Nat :=
  if i < 0 then (max ((len : Int) + i) 0).toNat
  else (min i (len : Int)).toNat

/-- `xs.slice(a, b)`: the elements from normalised index `a` (inclusive) to
normalised index `b` (exclusive). -/
def jsSlice (xs : List α) (a b : Int) : List α :=
  let s := normSliceIdx xs.length a
  let e := normSliceIdx xs.length b
  (xs.drop s).take (e - s)

/-- `xs.slice(a)`: the elements from normalised index `a` to the end. -/
def jsSliceFrom (xs : List α) (a : Int) : List α :=
  xs.drop (normSliceIdx xs.length a)

/-- `xs.splice(start, cnt)`, result after removal: delete `cnt` elements
(clamped at `0`) from normalised index `start`. -/
def jsSpliceRemove (xs : List α) (start cnt : Int) : List α :=
  let s := normSliceIdx xs.length start
  let c := (max cnt 0).toNat
  xs.take s ++ xs.drop (s + c)

/-- Element read `h[i]` with a numeric key on a defined receiver: array
indexing, object field `toString i`, string character access; `undefined`
otherwise.  Reads never throw on a defined, non-`null` receiver. -/
def jsIndexNum (h : Json) (i : Int) : Option Json :=
  match h with
  | .arr xs => if 0 ≤ i then xs.get? i.toNat else none
  | .obj m => m.lookup (toString i)
  | .str s =>
      if 0 ≤ i then (s.toList.get? i.toNat).map (fun c => Json.str (String.mk [c]))
      else none
  | _ => none

/-- Assignment `h[i] = v` with a numeric key (strict mode), post round trip:
array element assignment for `i ≥ 0` (`arrAssign`); a negative index creates a
property `JSON.stringify` ignores; object field assignment under the key
`toString i`; `TypeError` on `null` and primitives. -/
def jsAssignNum (h : Json) (i : Int) (v : Option Json) : Except String Json :=
  match h with
  | .arr xs =>
      if 0 ≤ i then .ok (.arr (arrAssign xs i.toNat v)) else .ok (.arr xs)
  | .obj m =>
      .ok (.obj (match v with
                 | some w => objAssign m (toString i) w
                 | none => objErase m (toString i)))
  | .null => .error "TypeError: Cannot set properties of null"
  | _ => .error "TypeError: Cannot create property on primitive value"

/-- `h.push(v)` (an `undefined` element stringifies as `null`). -/
def jsPush (h : Json) (v : Option Json) : Except String Json :=
  match h with
  | .arr xs => .ok (.arr (xs ++ [v.getD Json.null]))
  | _ => .error "TypeError: list.push is not a function"

/-- `h.unshift(v)` (an `undefined` element stringifies as `null`). -/
def jsUnshift (h : Json) (v : Option Json) : Except String Json :=
  match h with
  | .arr xs => .ok (.arr (v.getD Json.null :: xs))
  | _ => .error "TypeError: list.unshift is not a function"

/-- `h.slice(a, b)` as a JS value: arrays and strings have `slice`; other
receivers throw. -/
def jsSliceVal (h : Json) (a b : Int) : Except String Json :=
  match h with
  | .arr xs => .ok (.arr (jsSlice xs a b))
  | .str s => .ok (.str (String.mk (jsSlice s.toList a b)))
  | _ => .error "TypeError: list.slice is not a function"

/-- `h.slice(a)` as a JS value. -/
def jsSliceFromVal (h : Json) (a : Int) : Except String Json :=
  match h with
  | .arr xs => .ok (.arr (jsSliceFrom xs a))
  | .str s => .ok (.str (String.mk (jsSliceFrom s.toList a)))
  | _ => .error "TypeError: list.slice is not a function"

/-- `h.splice(start, cnt)` (mutating; only arrays have `splice`). -/
def jsSpliceCnt (h : Json) (start cnt : Int) : Except String Json :=
  match h with
  | .arr xs => .ok (.arr (jsSpliceRemove xs start cnt))
  | _ => .error "TypeError: list.splice is not a function"

/-- `h.splice(start)`: remove every element from normalised `start` on. -/
def jsSpliceFrom (h : Json) (start : Int) : Except String Json :=
  match h with
  | .arr xs => .ok (.arr (xs.take (normSliceIdx xs.length start)))
  | _ => .error "TypeError: list.splice is not a function"

/-- `h.length` as read by `listDel`'s emptiness check: array/string length;
`undefined` (hence falsy) on other receivers.  (An object's own `length`
field is not modelled — no claim stores a hash with such a field under a key
used as a list.) -/
def jsLength : Json → Option Nat
  | .arr xs => some xs.length
  | .str s => some s.length
  | _ => none

/-- `h.length = 0` (strict mode): clears an array; a string's `length` is
read-only, so strict mode throws.  Other receivers cannot reach this
operation in `listDel` (their `length` read yields `undefined`, which is
falsy, and causes an early return). -/
def jsClearLength (h : Json) : Except String Json :=
  match h with
  | .arr _ => .ok (.arr [])
  | .str _ => .error "TypeError: Cannot assign to read only property"
  | _ => .ok h

namespace MemcachedWrapper

/-- `get(key)` (lines 74–77): validate the key, then read from the backend;
an absent key yields `undefined` (`none`). -/
def get (st : Store) (key : String) : Except String (Option Json) :=
  match checkKeyValidity key with
  | .error e => .error e
  | .ok () => .ok (st.lookup key)

/-- `set(key, data, ttl)` (lines 88–92): validate the key; throw
`'Invalid arguments for set operation'` when `!Number(ttl)` (i.e. `Number(ttl)`
is `0` or `NaN`) or `data === undefined`; otherwise write to the backend. -/
def set (st : Store) (key : String) (data : Option Json) (ttl : Option Int) :
    Except String Store :=
  match checkKeyValidity key with
  | .error e => .error e
  | .ok () =>
    match data with
    | none => .error "Invalid arguments for set operation"
    | some v =>
      if (toNumber ttl).truthy then .ok (rawSet st key v)
      else .error "Invalid arguments for set operation"

/-- `del(key)` (lines 101–105): validate the key, delete from the backend,
return `'OK'`. -/
def del (st : Store) (key : String) : Except String (String × Store) :=
  match checkKeyValidity key with
  | .error e => .error e
  | .ok () => .ok ("OK", rawDel st key)

/-- `hashSet(key, field, data, ttl)` (lines 117–132): validate; read the
current entry and decode it, starting from `{}` when the entry is absent or
falsy (line 121 performs the read twice — with no concurrent writer both reads
agree, so one read is modelled); if `field` is a string perform
`hash[field] = data`, otherwise throw `'The field name must be a string'`;
re-encode and `set` with the given `ttl`. -/
def hashSet (st : Store) (key : String) (field : Option String)
    (data : Option Json) (ttl : Option Int) : Except String Store :=
  match checkKeyValidity key with
  | .error e => .error e
  | .ok () =>
    match get st key with
    | .error e => .error e
    | .ok cur =>
      let hash : Json := match cur with
        | some v => if jsTruthy v then v else Json.obj []
        | none => Json.obj []
      match field with
      | none => .error "The field name must be a string"
      | some f =>
        match jsAssign hash f data with
        | .error e => .error e
        | .ok hash2 => set st key (some hash2) ttl

/-- `hashGet(key, field)` (lines 143–148): validate; read; decode the entry
when the read-back string is truthy, else `undefined`; if `field` is truthy
return `hash[field]` (a `TypeError` when the hash is `undefined`), else return
the hash itself. -/
def hashGet (st : Store) (key : String) (field : Option String) :
    Except String (Option Json) :=
  match checkKeyValidity key with
  | .error e => .error e
  | .ok () =>
    match get st key with
    | .error e => .error e
    | .ok hashString =>
      let hash : Option Json :=
        if optTruthy hashString then hashString else none
      if fieldTruthy field then jsIndexStr hash (field.getD "")
      else .ok hash

/-- The `options` object of `hashDel` (`{ ttl }`). -/
structure HashDelOpts where
  ttl : Option Int := none

/-- `hashDel(key, field, options)` (lines 159–172): validate; a falsy `field`
delegates to `del` (returns `'OK'`); an absent/falsy entry yields
`'Data not found'`; decode (`JSON.parse(hashString) || {}`); a `field` that
reads back as `undefined` yields `'Data not found'` with no write; otherwise
`delete hash[field]`, write back with `options.ttl` (a `TypeError` when
`options` itself is `undefined`), and return `'OK'`. -/
def hashDel (st : Store) (key : String) (field : Option String)
    (options : Option HashDelOpts) : Except String (String × Store) :=
  match checkKeyValidity key with
  | .error e => .error e
  | .ok () =>
    if !fieldTruthy field then del st key
    else
      match get st key with
      | .error e => .error e
      | .ok hashString =>
        if !optTruthy hashString then .ok ("Data not found", st)
        else
          let parsed : Json := match hashString with
            | some v => v
            | none => Json.null
          let hash : Json := if jsTruthy parsed then parsed else Json.obj []
          match jsIndexStr (some hash) (field.getD "") with
          | .error e => .error e
          | .ok fv =>
            if fv.isNone then .ok ("Data not found", st)
            else
              match jsDelete hash (field.getD "") with
              | .error e => .error e
              | .ok hash2 =>
                match options with
                | none => .error "TypeError: Cannot read properties of undefined"
                | some o =>
                  match set st key (some hash2) o.ttl with
                  | .error e => .error e
                  | .ok st2 => .ok ("OK", st2)

/-- The `options` object of `listSet` (`{ index, push = false }`).  The
`push` option is documented as a boolean; its destructuring default is
`false`. -/
structure ListSetOpts where
  index : Option Int := none
  push : Bool := false

/-- The `options` object of `listGet`/`listDel` (`{ index, start, end }`).
The field `stop` models the JS option `end` (`end` is a Lean keyword). -/
structure RangeOpts where
  index : Option Int := none
  start : Option Int := none
  stop : Option Int := none

/-- `!options || !Object.keys(options).length`: no option was supplied.
(An option key explicitly present with value `undefined` is modelled as
absent; `Number(undefined)` is `NaN` either way.) -/
def RangeOpts.noKeys (o : RangeOpts) : Bool :=
  o.index.isNone && o.start.isNone && o.stop.isNone

/-- `listSet(key, data, ttl, options)` (lines 189–203): validate; read and
decode, defaulting to `[]`; with a truthy `Number(options.index)` assign at
that index; else with `push` truthy append; else prepend (`unshift`);
re-encode and `set` with the given `ttl`, returning its result. -/
def listSet (st : Store) (key : String) (data : Option Json)
    (ttl : Option Int) (options : ListSetOpts) : Except String Store :=
  match checkKeyValidity key with
  | .error e => .error e
  | .ok () =>
    match get st key with
    | .error e => .error e
    | .ok listString =>
      let list : Json := match listString with
        | some v => if jsTruthy v then v else Json.arr []
        | none => Json.arr []
      let step : Except String Json :=
        match toNumber options.index with
        | .int i =>
          if i != 0 then jsAssignNum list i data
          else if options.push then jsPush list data
          else jsUnshift list data
        | .nan =>
          if options.push then jsPush list data
          else jsUnshift list data
      match step with
      | .error e => .error e
      | .ok list2 => set st key (some list2) ttl

/-- `listGet(key, options)` (lines 214–234): read (via `get`, which validates
the key) and decode, `undefined` when absent/falsy; with no options return
the whole value; otherwise, when the value is truthy: a truthy
`Number(index)` selects one element; truthy `start` and `end` yield
`slice(start, end + 1)`; truthy `start` alone yields `slice(start)`; truthy
`end` alone yields `slice(0, end + 1)`; neither yields the whole value.
A falsy/absent value with options yields `undefined`. -/
def listGet (st : Store) (key : String) (options : RangeOpts) :
    Except String (Option Json) :=
  match get st key with
  | .error e => .error e
  | .ok listString =>
    let list : Option Json :=
      if optTruthy listString then listString else none
    if options.noKeys then .ok list
    else
      let itemIndex := toNumber options.index
      let startIndex := toNumber options.start
      let endIndex := toNumber options.stop
      if optTruthy list then
        let l : Json := match list with
          | some v => v
          | none => Json.null
        if itemIndex.truthy then .ok (jsIndexNum l itemIndex.toInt)
        else if startIndex.truthy && endIndex.truthy then
          (jsSliceVal l startIndex.toInt (endIndex.toInt + 1)).map
            (fun j => some j)
        else if startIndex.truthy && !endIndex.truthy then
          (jsSliceFromVal l startIndex.toInt).map (fun j => some j)
        else if !startIndex.truthy && endIndex.truthy then
          (jsSliceVal l 0 (endIndex.toInt + 1)).map (fun j => some j)
        else .ok list
      else .ok none

/-- `listDel(key, ttl, options)` (lines 249–271): validate; with no options
delegate to `del` (returning `'OK'`); read and decode, defaulting to `[]`;
return early (`undefined`) when `list.length` is falsy; with
`Number(index) >= 0` remove that one element (`splice(index, 1)`); else with
`start >= 0` and `end >= 0` remove `splice(start, end - start + 1)`; else with
`start >= 0` truncate from `start`; else with `end >= 0` remove the prefix
`splice(0, end + 1)`; else clear the list; re-encode and `set` with `ttl`. -/
def listDel (st : Store) (key : String) (ttl : Option Int)
    (options : RangeOpts) : Except String (Option String × Store) :=
  match checkKeyValidity key with
  | .error e => .error e
  | .ok () =>
    if options.noKeys then
      match del st key with
      | .error e => .error e
      | .ok (msg, st2) => .ok (some msg, st2)
    else
      match get st key with
      | .error e => .error e
      | .ok listString =>
        let list : Json := match listString with
          | some v => if jsTruthy v then v else Json.arr []
          | none => Json.arr []
        match jsLength list with
        | none => .ok (none, st)
        | some 0 => .ok (none, st)
        | some (_ + 1) =>
          let itemIndex := toNumber options.index
          let startIndex := toNumber options.start
          let endIndex := toNumber options.stop
          let step : Except String Json :=
            if itemIndex.nonneg then jsSpliceCnt list itemIndex.toInt 1
            else if startIndex.nonneg && endIndex.nonneg then
              jsSpliceCnt list startIndex.toInt
                (endIndex.toInt - startIndex.toInt + 1)
            else if startIndex.nonneg then jsSpliceFrom list startIndex.toInt
            else if endIndex.nonneg then jsSpliceCnt list 0 (endIndex.toInt + 1)
            else jsClearLength list
          match step with
          | .error e => .error e
          | .ok list2 =>
            match set st key (some list2) ttl with
            | .error e => .error e
            | .ok st2 => .ok (none, st2)

end MemcachedWrapper

/-! ### Helper lemmas -/

lemma lookup_rawSet_self (st : Store) (k : String) (v : Json) :
    (rawSet st k v).lookup k = some v := by
  induction st with
  | nil => simp [rawSet, List.lookup]
  | cons e rest ih =>
    obtain ⟨k', v'⟩ := e
    by_cases h : k' = k
    · simp [rawSet, h, List.lookup]
    · have hbe : (k == k') = false := beq_eq_false_iff_ne.mpr fun hh => h hh.symm
      simp [rawSet, if_neg h, List.lookup, hbe, ih]

lemma lookup_objAssign_self (m : List (String × Json)) (f : String) (v : Json) :
    (objAssign m f v).lookup f = some v := by
  induction m with
  | nil => simp [objAssign, List.lookup]
  | cons e rest ih =>
    obtain ⟨g, w⟩ := e
    by_cases h : g = f
    · simp [objAssign, h, List.lookup]
    · have hbe : (f == g) = false := beq_eq_false_iff_ne.mpr fun hh => h hh.symm
      simp [objAssign, if_neg h, List.lookup, hbe, ih]

lemma get_ok (st : Store) (key : String)
    (hk : checkKeyValidity key = .ok ()) :
    MemcachedWrapper.get st key = .ok (st.lookup key) := by
  simp [MemcachedWrapper.get, hk]

lemma set_ok (st : Store) (key : String) (v : Json) (t : Int)
    (hk : checkKeyValidity key = .ok ()) (ht : t ≠ 0) :
    MemcachedWrapper.set st key (some v) (some t) = .ok (rawSet st key v) := by
  simp [MemcachedWrapper.set, hk, toNumber, JsNum.truthy, ht]

lemma normSliceIdx_coe (len s : Nat) : normSliceIdx len (s : Int) = min s len := by
  simp only [normSliceIdx]
  rw [if_neg (by omega)]
  omega

lemma jsSlice_nat (xs : List α) (s e : Nat) :
    jsSlice xs (s : Int) (e : Int) = (xs.drop s).take (e - s) := by
  simp only [jsSlice, normSliceIdx_coe]
  rcases le_or_lt s xs.length with h | h
  · rw [Nat.min_eq_left h]
    rcases le_or_lt e xs.length with h2 | h2
    · rw [Nat.min_eq_left h2]
    · rw [Nat.min_eq_right (le_of_lt h2)]
      rw [List.take_of_length_le (by simp),
        List.take_of_length_le (by simp; omega)]
  · rw [Nat.min_eq_right (le_of_lt h), List.drop_length,
      List.drop_eq_nil_of_le (le_of_lt h)]
    simp

lemma jsSpliceRemove_zero_one (x : α) (rest : List α) :
    jsSpliceRemove (x :: rest) 0 1 = rest := by
  have h0 : normSliceIdx (rest.length + 1) 0 = 0 := by
    simpa using normSliceIdx_coe (rest.length + 1) 0
  simp [jsSpliceRemove, h0]

/-! ### Claim theorems -/

/-- C1 (code bug): `hashGet` on a key absent from the backend returns
`undefined` when the field argument is omitted, but *throws* a `TypeError`
when a field argument is given (`hash[field]` with `hash === undefined`),
contradicting both the claim and the method's own JSDoc
(`undefined if not found`). -/
theorem hashGet_absent_key_behavior :
    MemcachedWrapper.hashGet [] "k" (some "f")
      = .error "TypeError: Cannot read properties of undefined" ∧
    MemcachedWrapper.hashGet [] "k" none = .ok none :=
  ⟨rfl, rfl⟩

/-- C2 (counterexample): `set` with the negative TTL `-1` does **not** fail —
the guard is `!Number(ttl)`, and `Number(-1) = -1` is truthy — so the value is
written to the backend. -/
theorem set_negative_ttl_accepted_cx :
    (-1 : Int) < 0 ∧
    MemcachedWrapper.set [] "k" (some (Json.str "v")) (some (-1))
      = .ok [("k", Json.str "v")] :=
  ⟨by decide, rfl⟩

/-- C2 (amended): `set(key, value, ttl)` fails with
`'Invalid arguments for set operation'` — before any backend write — exactly
when `Number(ttl)` is falsy (`0` or `NaN`, in particular when `ttl` is
omitted) or `value` is `undefined`; a negative nonzero TTL passes the guard. -/
theorem set_rejects_falsy_ttl_or_missing_value (st : Store) (key : String)
    (data : Option Json) (ttl : Option Int)
    (hk : checkKeyValidity key = .ok ())
    (h : (toNumber ttl).truthy = false ∨ data = none) :
    MemcachedWrapper.set st key data ttl
      = .error "Invalid arguments for set operation" := by
  simp only [MemcachedWrapper.set, hk]
  rcases h with h | h
  · cases data <;> simp [h]
  · subst h; rfl

theorem set_rejects_falsy_ttl_or_missing_value_witness :
    MemcachedWrapper.set [] "k" none none
      = .error "Invalid arguments for set operation" :=
  set_rejects_falsy_ttl_or_missing_value [] "k" none none rfl (Or.inr rfl)

/-- C8: `del` returns `'OK'` for every valid key, whether or not the key was
present, and `hashDel` with no field argument delegates to `del` and likewise
returns `'OK'`. -/
theorem del_and_hashDel_return_OK (st : Store) (key : String)
    (options : Option MemcachedWrapper.HashDelOpts)
    (hk : checkKeyValidity key = .ok ()) :
    MemcachedWrapper.del st key = .ok ("OK", rawDel st key) ∧
    MemcachedWrapper.hashDel st key none options
      = .ok ("OK", rawDel st key) := by
  constructor
  · simp [MemcachedWrapper.del, hk]
  · simp [MemcachedWrapper.hashDel, MemcachedWrapper.del, hk, fieldTruthy]

theorem del_and_hashDel_return_OK_witness :
    MemcachedWrapper.del [] "k" = .ok ("OK", rawDel [] "k") ∧
    MemcachedWrapper.hashDel [] "k" none none
      = .ok ("OK", rawDel [] "k") :=
  del_and_hashDel_return_OK [] "k" none rfl

/-- C3: `listSet` with default options (no `index`, `push` not set) prepends
the element: the stored sequence becomes `v :: xs`, and a subsequent
`listGet` of the whole sequence returns the new element followed by the
previous elements in order. -/
theorem listSet_default_prepends (st : Store) (key : String) (v : Json)
    (t : Int) (xs : List Json)
    (hk : checkKeyValidity key = .ok ()) (ht : 0 < t)
    (hs : st.lookup key = some (Json.arr xs)) :
    MemcachedWrapper.listSet st key (some v) (some t) {}
      = .ok (rawSet st key (Json.arr (v :: xs))) ∧
    MemcachedWrapper.listGet (rawSet st key (Json.arr (v :: xs))) key {}
      = .ok (some (Json.arr (v :: xs))) := by
  constructor
  · simp only [MemcachedWrapper.listSet, hk, get_ok _ _ hk, hs]
    simp [jsTruthy, toNumber, jsUnshift, set_ok _ _ _ _ hk ht.ne']
  · simp only [MemcachedWrapper.listGet, get_ok _ _ hk, lookup_rawSet_self]
    simp [optTruthy, jsTruthy, MemcachedWrapper.RangeOpts.noKeys]

theorem listSet_default_prepends_witness :
    MemcachedWrapper.listSet [("k", Json.arr [Json.num 1])] "k"
      (some (Json.num 9)) (some 5) {}
      = .ok (rawSet [("k", Json.arr [Json.num 1])] "k"
          (Json.arr [Json.num 9, Json.num 1])) ∧
    MemcachedWrapper.listGet
      (rawSet [("k", Json.arr [Json.num 1])] "k"
        (Json.arr [Json.num 9, Json.num 1])) "k" {}
      = .ok (some (Json.arr [Json.num 9, Json.num 1])) :=
  listSet_default_prepends _ "k" (Json.num 9) 5 [Json.num 1] rfl
    (by decide) rfl

set_option maxRecDepth 4000 in
/-- C4 (counterexample): a 251-character key containing one space is
**accepted** — the validator measures the key after stripping every
whitespace character, so this key's measured length is 250. -/
theorem key251_with_space_accepted_cx :
    (String.mk (List.replicate 250 'a') ++ " ").length = 251 ∧
    checkKeyValidity (String.mk (List.replicate 250 'a') ++ " ") = .ok () :=
  ⟨rfl, rfl⟩

/-- C4 (amended): key validation is a pure function of the
whitespace-stripped key: it rejects any key that strips to the empty string
(so `""` and `"   "`), rejects any key whose stripped form exceeds 250
characters (so any whitespace-free 251-character key), and accepts any other
key (so a whitespace-free 250-character key); every validation error is
returned by `get`/`set`/`del` unchanged, with no backend effect (an erroring
`set`/`del` yields no store). -/
theorem checkKeyValidity_amended (key : String) :
    (stripWs key = "" →
      checkKeyValidity key = .error "The key cannot be empty") ∧
    (stripWs key ≠ "" → maxLengthKey < (stripWs key).length →
      checkKeyValidity key = .error "The key must be at least one character") ∧
    (stripWs key ≠ "" → (stripWs key).length ≤ maxLengthKey →
      checkKeyValidity key = .ok ()) ∧
    (∀ e st data ttl, checkKeyValidity key = .error e →
      MemcachedWrapper.get st key = .error e ∧
      MemcachedWrapper.set st key data ttl = .error e ∧
      MemcachedWrapper.del st key = .error e) := by
  refine ⟨fun h => ?_, fun h1 h2 => ?_, fun h1 h2 => ?_, fun e st data ttl h => ?_⟩
  · simp [checkKeyValidity, h]
  · simp only [checkKeyValidity]
    rw [if_neg h1, if_pos h2]
  · simp only [checkKeyValidity]
    rw [if_neg h1, if_neg (by omega)]
  · exact ⟨by simp [MemcachedWrapper.get, h],
      by simp [MemcachedWrapper.set, h],
      by simp [MemcachedWrapper.del, h]⟩

theorem checkKeyValidity_amended_witness :
    checkKeyValidity "" = .error "The key cannot be empty" ∧
    MemcachedWrapper.set [] "" none none
      = .error "The key cannot be empty" := by
  have h := checkKeyValidity_amended ""
  exact ⟨h.1 rfl, (h.2.2.2 _ [] none none (h.1 rfl)).2.1⟩

/-- C5 (counterexample): the round trip fails for two string field names.
With the empty string, `hashSet` stores the value under the own field `""`
but `hashGet(key, "")` treats the falsy field argument as omitted and returns
the whole mapping `{"": 1}`, not `1`.  With `"__proto__"`, the assignment
`hash["__proto__"] = 1` invokes the inherited accessor setter, so no own
property is stored (`{}` is written back) and `hashGet(key, "__proto__")`
returns the inherited prototype value, not `1`. -/
theorem hashSet_empty_field_roundtrip_cx :
    MemcachedWrapper.hashSet [] "k" (some "") (some (Json.num 1)) (some 1)
      = .ok [("k", Json.obj [("", Json.num 1)])] ∧
    MemcachedWrapper.hashGet [("k", Json.obj [("", Json.num 1)])] "k" (some "")
      = .ok (some (Json.obj [("", Json.num 1)])) ∧
    Json.obj [("", Json.num 1)] ≠ Json.num 1 ∧
    MemcachedWrapper.hashSet [] "k" (some "__proto__") (some (Json.num 1))
      (some 1) = .ok [("k", Json.obj [])] ∧
    MemcachedWrapper.hashGet [("k", Json.obj [])] "k" (some "__proto__")
      = .ok (some (Json.proto "__proto__")) ∧
    Json.proto "__proto__" ≠ Json.num 1 :=
  ⟨rfl, rfl, fun h => Json.noConfusion h, rfl, rfl,
    fun h => Json.noConfusion h⟩

/-- C5 (amended): for every valid key, **non-empty** string field **other
than `"__proto__"`**, value and positive TTL, with no concurrent writers, on
a key whose entry is absent or holds an encoded mapping `m`,
`hashSet(key, f, v, ttl)` writes `objAssign m f v` back and a subsequent
`hashGet(key, f)` returns `v`.  (With the empty-string field `hashGet`
returns the whole mapping, and with `"__proto__"` the assignment hits the
inherited setter and stores nothing — see the counterexample.) -/
theorem hashSet_hashGet_roundtrip (st : Store) (key f : String) (v : Json)
    (t : Int) (m : List (String × Json))
    (hk : checkKeyValidity key = .ok ()) (hf : f ≠ "")
    (hp : f ≠ "__proto__") (ht : 0 < t)
    (hcur : st.lookup key = some (Json.obj m) ∨
      (st.lookup key = none ∧ m = [])) :
    MemcachedWrapper.hashSet st key (some f) (some v) (some t)
      = .ok (rawSet st key (Json.obj (objAssign m f v))) ∧
    MemcachedWrapper.hashGet (rawSet st key (Json.obj (objAssign m f v)))
      key (some f) = .ok (some v) := by
  have hfb : (f != "") = true := bne_iff_ne.mpr hf
  have hpb : (f == "__proto__") = false := beq_eq_false_iff_ne.mpr hp
  constructor
  · rcases hcur with h | ⟨h, hm⟩
    · simp only [MemcachedWrapper.hashSet, hk, get_ok _ _ hk, h]
      simp [jsTruthy, jsAssign, hpb, set_ok _ _ _ _ hk ht.ne']
    · subst hm
      simp only [MemcachedWrapper.hashSet, hk, get_ok _ _ hk, h]
      simp [jsAssign, hp, hpb, set_ok _ _ _ _ hk ht.ne']
  · simp only [MemcachedWrapper.hashGet, hk, get_ok _ _ hk,
      lookup_rawSet_self]
    simp [optTruthy, jsTruthy, fieldTruthy, hfb, jsIndexStr,
      lookup_objAssign_self]

theorem hashSet_hashGet_roundtrip_witness :
    MemcachedWrapper.hashSet [] "k" (some "f") (some (Json.num 7)) (some 1)
      = .ok (rawSet [] "k" (Json.obj (objAssign [] "f" (Json.num 7)))) ∧
    MemcachedWrapper.hashGet
      (rawSet [] "k" (Json.obj (objAssign [] "f" (Json.num 7)))) "k"
      (some "f") = .ok (some (Json.num 7)) :=
  hashSet_hashGet_roundtrip [] "k" "f" (Json.num 7) 1 [] rfl
    (by decide) (by decide) (by decide) (Or.inr ⟨rfl, rfl⟩)

/-- C6 (counterexample): with `{start: 1, end: 0}` on the stored sequence
`[10, 20, 30]` the inclusive slice `[1, 0]` is empty, but `listGet` returns
`[20, 30]` — a zero `end` is falsy and is treated as "no end given", so the
code takes `slice(1)`. -/
theorem listGet_end_zero_cx :
    MemcachedWrapper.listGet
      [("k", Json.arr [Json.num 10, Json.num 20, Json.num 30])] "k"
      {start := some 1, stop := some 0}
      = .ok (some (Json.arr [Json.num 20, Json.num 30])) ∧
    Json.arr [Json.num 20, Json.num 30] ≠ Json.arr [] :=
  ⟨rfl, by simp⟩

/-- C6 (amended): for every valid key whose entry holds an encoded sequence,
`listGet` with both `start ≥ 1` and `end ≥ 1` given returns the inclusive
slice from index `start` through index `end` — in particular
`{start: 1, end: 3}` returns the elements at indices 1, 2 and 3.  A `start`
or `end` equal to `0` is falsy and is treated as not given. -/
theorem listGet_start_end_slice (st : Store) (key : String) (xs : List Json)
    (s e : Nat) (hk : checkKeyValidity key = .ok ())
    (hst : st.lookup key = some (Json.arr xs)) (h1 : 1 ≤ s) (h2 : 1 ≤ e) :
    MemcachedWrapper.listGet st key
      {start := some (s : Int), stop := some (e : Int)}
      = .ok (some (Json.arr ((xs.drop s).take (e + 1 - s)))) := by
  have hs0 : ((s : Int) != 0) = true := by
    rw [bne_iff_ne]; exact_mod_cast (Nat.pos_of_ne_zero (by omega)).ne'
  have he0 : ((e : Int) != 0) = true := by
    rw [bne_iff_ne]; exact_mod_cast (Nat.pos_of_ne_zero (by omega)).ne'
  simp only [MemcachedWrapper.listGet, get_ok _ _ hk, hst]
  simp only [MemcachedWrapper.RangeOpts.noKeys, optTruthy, jsTruthy,
    toNumber, JsNum.truthy, JsNum.toInt, hs0, he0, jsSliceVal,
    Option.isNone_none, Option.isNone_some, Bool.and_self, Bool.and_false,
    Bool.false_and, Bool.and_true, Bool.true_and, if_false, if_true,
    Bool.not_true, Bool.not_false]
  rw [show ((e : Int) + 1) = ((e + 1 : Nat) : Int) by push_cast; ring,
    jsSlice_nat]
  rfl

theorem listGet_start_end_slice_witness :
    MemcachedWrapper.listGet
      [("k", Json.arr [Json.num 10, Json.num 20, Json.num 30, Json.num 40,
        Json.num 50])] "k"
      {start := some ((1 : Nat) : Int), stop := some ((3 : Nat) : Int)}
      = .ok (some (Json.arr
          (([Json.num 10, Json.num 20, Json.num 30, Json.num 40,
            Json.num 50].drop 1).take (3 + 1 - 1)))) :=
  listGet_start_end_slice _ "k" _ 1 3 rfl rfl (by decide) (by decide)

/-- C7: `listDel(key, ttl, {index: 0})` on a non-empty stored sequence
removes exactly the head element: `Number(0) >= 0` selects `splice(0, 1)`,
and the remaining elements are written back in their original order. -/
theorem listDel_index_zero_removes_head (st : Store) (key : String)
    (x : Json) (rest : List Json) (t : Int)
    (hk : checkKeyValidity key = .ok ()) (ht : 0 < t)
    (hs : st.lookup key = some (Json.arr (x :: rest))) :
    MemcachedWrapper.listDel st key (some t) {index := some 0}
      = .ok (none, rawSet st key (Json.arr rest)) := by
  simp only [MemcachedWrapper.listDel, hk, MemcachedWrapper.RangeOpts.noKeys,
    get_ok _ _ hk, hs]
  simp [jsTruthy, jsLength, toNumber, JsNum.nonneg, JsNum.toInt,
    jsSpliceCnt, jsSpliceRemove_zero_one, set_ok _ _ _ _ hk ht.ne']

theorem listDel_index_zero_removes_head_witness :
    MemcachedWrapper.listDel [("k", Json.arr [Json.num 1, Json.num 2])] "k"
      (some 5) {index := some 0}
      = .ok (none, rawSet [("k", Json.arr [Json.num 1, Json.num 2])] "k"
          (Json.arr [Json.num 2])) :=
  listDel_index_zero_removes_head _ "k" (Json.num 1) [Json.num 2] 5 rfl
    (by decide) rfl

/-- C9 (counterexample): the field `"toString"` is absent from the stored
mapping `{"a": 1}`, yet `hashDel` does **not** return `'Data not found'`:
`hash["toString"]` finds the inherited `Object.prototype.toString`, which is
not `undefined`, so the guard is skipped, `delete hash["toString"]` is a
no-op, the (unchanged) mapping is written back — a write that resets the
entry's TTL — and `'OK'` is returned. -/
theorem hashDel_inherited_toString_cx :
    (List.lookup "toString" [("a", Json.num 1)] = none) ∧
    MemcachedWrapper.hashDel [("k", Json.obj [("a", Json.num 1)])] "k"
      (some "toString") (some { ttl := some 5 })
      = .ok ("OK", [("k", Json.obj [("a", Json.num 1)])]) ∧
    ("OK" : String) ≠ "Data not found" :=
  ⟨rfl, rfl, by decide⟩

/-- C9 (amended): `hashDel` with a non-empty field returns `'Data not
found'` and leaves the store unchanged (no write) when the backend entry is
absent, or when the entry decodes to a mapping that does not contain the
field and the field does not name an inherited `Object.prototype` member.
(For inherited names such as `"toString"` the `hash[field] === undefined`
guard is skipped and the code rewrites the entry and returns `'OK'` — see
the counterexample.) -/
theorem hashDel_missing_field_not_found (st : Store) (key f : String)
    (options : Option MemcachedWrapper.HashDelOpts)
    (hk : checkKeyValidity key = .ok ()) (hf : f ≠ "")
    (hpm : isObjectProtoMember f = false)
    (h : st.lookup key = none ∨
      ∃ m, st.lookup key = some (Json.obj m) ∧ m.lookup f = none) :
    MemcachedWrapper.hashDel st key (some f) options
      = .ok ("Data not found", st) := by
  have hfb : (f != "") = true := bne_iff_ne.mpr hf
  rcases h with h | ⟨m, hm, hlf⟩
  · simp [MemcachedWrapper.hashDel, hk, get_ok _ _ hk, h, fieldTruthy, hfb,
      optTruthy]
  · simp [MemcachedWrapper.hashDel, hk, get_ok _ _ hk, hm, fieldTruthy, hfb,
      optTruthy, jsTruthy, jsIndexStr, hlf, hpm]

theorem hashDel_missing_field_not_found_witness :
    MemcachedWrapper.hashDel [("k", Json.obj [("a", Json.num 1)])] "k"
      (some "b") (some { ttl := some 5 })
      = .ok ("Data not found", [("k", Json.obj [("a", Json.num 1)])]) :=
  hashDel_missing_field_not_found _ "k" "b" _ rfl (by decide) (by decide)
    (Or.inr ⟨[("a", Json.num 1)], rfl, rfl⟩)

/-- C10: the empty string as field argument is falsy, so it is treated as if
the field were omitted: `hashGet(key, "")` coincides with `hashGet(key)` and
returns the whole decoded mapping, and `hashDel(key, "")` delegates to the
full-key delete and returns `'OK'`. -/
theorem empty_field_treated_as_omitted (st : Store) (key : String)
    (m : List (String × Json))
    (options : Option MemcachedWrapper.HashDelOpts)
    (hk : checkKeyValidity key = .ok ())
    (hs : st.lookup key = some (Json.obj m)) :
    MemcachedWrapper.hashGet st key (some "")
      = MemcachedWrapper.hashGet st key none ∧
    MemcachedWrapper.hashGet st key (some "") = .ok (some (Json.obj m)) ∧
    MemcachedWrapper.hashDel st key (some "") options
      = .ok ("OK", rawDel st key) := by
  refine ⟨rfl, ?_, ?_⟩
  · simp [MemcachedWrapper.hashGet, hk, get_ok _ _ hk, hs, fieldTruthy,
      optTruthy, jsTruthy]
  · simp [MemcachedWrapper.hashDel, MemcachedWrapper.del, hk, fieldTruthy]

theorem empty_field_treated_as_omitted_witness :
    MemcachedWrapper.hashGet [("k", Json.obj [("", Json.num 7)])] "k"
      (some "") = MemcachedWrapper.hashGet
        [("k", Json.obj [("", Json.num 7)])] "k" none ∧
    MemcachedWrapper.hashGet [("k", Json.obj [("", Json.num 7)])] "k"
      (some "") = .ok (some (Json.obj [("", Json.num 7)])) ∧
    MemcachedWrapper.hashDel [("k", Json.obj [("", Json.num 7)])] "k"
      (some "") none
      = .ok ("OK", rawDel [("k", Json.obj [("", Json.num 7)])] "k") :=
  empty_field_treated_as_omitted _ "k" [("", Json.num 7)] none rfl rfl

end CacheEnvelop
